import Mathlib

/-!
Shallow embedding of the `spain_energy` repository, covering:
  * `pages/07_BESS_Spreads.py`: `validate_cycles`, `simulate_battery_operations`,
    `compute_bess_metrics`;
  * `captured_prices.py`: `join_price_with_pv`, `compute_captured_price_aggregations`;
  * `pages/06_PPA_Effective_Price.py`: `compute_ppa_metrics`;
  * `utils.py`: `parse_timestamp`;
  * `backfill_omie.py`: `parse_omie_file`.

Money, prices and energies are modelled as rationals (`ℚ`); pandas data frames are
modelled as Lean lists of row structures carrying exactly the columns the modelled
functions read or write.
-/

namespace SpainEnergy

/-- A Python `datetime.time` value with seconds and microseconds zero, as produced
by `parse_time_input` / `time_input_with_arrows` in `pages/07_BESS_Spreads.py`. -/
structure TimeHM where
  hour : Nat
  minute : Nat
deriving DecidableEq, Repr

/-- Python compares `time` objects lexicographically on (hour, minute, ...);
with seconds zero this is lexicographic comparison of hour then minute. -/
def TimeHM.ltb (a b : TimeHM) : Bool :=
  a.hour < b.hour || (a.hour == b.hour && a.minute < b.minute)

/-- Python `a <= b` on `time` objects (seconds and microseconds zero). -/
def TimeHM.leb (a b : TimeHM) : Bool :=
  a.hour < b.hour || (a.hour == b.hour && a.minute ≤ b.minute)

/-- Minutes after midnight of a `TimeHM`. -/
def TimeHM.toMinutes (t : TimeHM) : Nat :=
  t.hour * 60 + t.minute

/-- Embedding of `validate_cycles` (`pages/07_BESS_Spreads.py`, lines 89-129).
Returns `(is_valid, error_message)`.  The source also builds a `sorted_times`
list (lines 112-118) that is never used afterwards; it is omitted here because
it has no effect on the result. -/
def validate_cycles (charge1 discharge1 : TimeHM)
    (charge2 discharge2 : Option TimeHM) : Bool × String :=
  match charge2, discharge2 with
  | some c2, some d2 =>
    -- two cycles: check all constraints
    if discharge1.leb charge1 then
      (false, "Charge time must be before discharge time for cycle 1.")
    else if d2.leb c2 then
      (false, "Charge time must be before discharge time for cycle 2.")
    -- cycle 2 completely before cycle 1
    else if d2.leb charge1 then
      (true, "")
    -- cycle 2 completely after cycle 1
    else if discharge1.leb c2 then
      (true, "")
    else
      (false, "Cycles overlap. Charge and discharge times must not overlap between cycles.")
  | _, _ =>
    -- single cycle: just check charge is before discharge
    if discharge1.leb charge1 then
      (false, "Charge time must be before discharge time for cycle 1.")
    else
      (true, "")

/-- The two-cycle acceptance condition claimed by the spec, with an explicit
battery duration in minutes: each charge start strictly precedes its discharge
start, and the window [charge-start, discharge-start + duration) of cycle 2
either entirely precedes cycle 1 charge start or entirely follows cycle 1
discharge end (discharge start plus duration).  This definition follows the
words of the spec, to be compared against `validate_cycles`. -/
def validate_cycles_claim (durationMin : Nat) (c1 d1 c2 d2 : TimeHM) : Bool :=
  c1.ltb d1 && c2.ltb d2 &&
    (d2.toMinutes + durationMin ≤ c1.toMinutes ||
     d1.toMinutes + durationMin ≤ c2.toMinutes)

/-! ## Battery simulator (`simulate_battery_operations`, lines 132-314)

An input row of the price data frame, restricted to the columns the simulator
reads: the interval start time within its calendar day (minutes after
midnight, as a rational so that 15-minute data is representable) and the
price.  The source groups the frame by calendar date and walks each day in
chronological order; here the input is a list of days, each a chronologically
sorted list of intervals, mirroring `df.groupby("date")` over the sorted
frame.  The charge/discharge windows of lines 225-256 are anchored to the
interval's own date, so window membership only depends on the time of day.

The interval duration (`interval_hours`, lines 168-186: 0.25 when the median
timestamp spacing is 10-20 minutes, 1.0 otherwise) is passed as a parameter;
the claims quantify over it. -/

/-- Price data row: interval start (minutes after midnight) and `price_eur_per_mwh`. -/
structure IntervalRow where
  timeMin : ℚ
  price : ℚ
deriving DecidableEq, Repr

/-- The columns `simulate_battery_operations` writes onto each row (lines 189-195):
energy charged/discharged in the interval, state of charge at end of interval,
charge cost (stored negative), discharge revenue, and the cross-day cumulative
net revenue. -/
structure IntervalResult where
  charge_mwh : ℚ
  discharge_mwh : ℚ
  battery_soc : ℚ
  charge_cost : ℚ
  discharge_revenue : ℚ
  net_revenue : ℚ
deriving DecidableEq, Repr

/-- Battery parameters of `simulate_battery_operations`.  The second cycle is
a single option because the source guards both cycle-2 windows behind
`charge2 is not None and discharge2 is not None` (line 243). -/
structure BessParams where
  capacity_mw : ℚ
  duration_hours : ℚ
  efficiency : ℚ
  charge1 : TimeHM
  discharge1 : TimeHM
  cycle2 : Option (TimeHM × TimeHM)
deriving DecidableEq, Repr

/-- `capacity_mwh = capacity_mw * duration_hours` (line 166). -/
def BessParams.capacity_mwh (p : BessParams) : ℚ :=
  p.capacity_mw * p.duration_hours

/-- Membership of an interval start in a window `[start, start + duration_hours)`
anchored to the interval's own date (lines 225-233 and analogues). -/
def inWindow (start : TimeHM) (durationHours : ℚ) (t : ℚ) : Bool :=
  decide ((start.toMinutes : ℚ) ≤ t ∧ t < (start.toMinutes : ℚ) + durationHours * 60)

/-- `is_charging`: interval start falls in the cycle-1 charge window or, when a
second cycle is configured, the cycle-2 charge window (lines 233-235, 250-252). -/
def BessParams.isCharging (p : BessParams) (t : ℚ) : Bool :=
  inWindow p.charge1 p.duration_hours t ||
    (match p.cycle2 with
     | some c => inWindow c.1 p.duration_hours t
     | none => false)

/-- `is_discharging`: interval start falls in the cycle-1 discharge window or,
when a second cycle is configured, the cycle-2 discharge window
(lines 238-240, 254-256). -/
def BessParams.isDischarging (p : BessParams) (t : ℚ) : Bool :=
  inWindow p.discharge1 p.duration_hours t ||
    (match p.cycle2 with
     | some c => inWindow c.2 p.duration_hours t
     | none => false)

/-- Mutable loop state of the simulator: the per-day state of charge and the
cross-day cumulative net revenue (lines 202-208). -/
structure SimState where
  soc : ℚ
  cumulative : ℚ
deriving DecidableEq, Repr

/-- The result row written when an interval neither charges nor discharges:
the initialized zero columns (lines 189-195) with the current state of charge
and the running cumulative net revenue written back (lines 304-311). -/
def idleResult (st : SimState) : IntervalResult :=
  ⟨0, 0, st.soc, 0, 0, st.cumulative⟩

/-- The signed cash flow a result row carries: its (negative) charge cost plus
its discharge revenue; at most one of the two is non-zero. -/
def cashflow (r : IntervalResult) : ℚ :=
  r.charge_cost + r.discharge_revenue

/-- One iteration of the interval loop (lines 215-311): window classification,
the charge branch (lines 262-281), the discharge branch (lines 284-302), and
the cumulative-revenue and SOC write-backs (lines 304-311). -/
def stepInterval (p : BessParams) (intervalHours : ℚ) (st : SimState)
    (row : IntervalRow) : SimState × IntervalResult :=
  let isCh := p.isCharging row.timeMin
  let isDis := p.isDischarging row.timeMin
  if isCh && !isDis then
    if st.soc < p.capacity_mwh then
      let charge_energy := min (p.capacity_mw * intervalHours) (p.capacity_mwh - st.soc)
      if 0 < charge_energy then
        let cost := -(charge_energy * row.price)
        let soc2 := st.soc + charge_energy
        let cum2 := st.cumulative + cost
        (⟨soc2, cum2⟩, ⟨charge_energy, 0, soc2, cost, 0, cum2⟩)
      else (st, idleResult st)
    else (st, idleResult st)
  else if isDis && !isCh then
    if 0 < st.soc then
      let available := st.soc * p.efficiency
      let discharge_energy := min (p.capacity_mw * intervalHours) available
      if 0 < discharge_energy then
        let removed := discharge_energy / p.efficiency
        let revenue := discharge_energy * row.price
        let soc2 := st.soc - removed
        let cum2 := st.cumulative + revenue
        (⟨soc2, cum2⟩, ⟨0, discharge_energy, soc2, 0, revenue, cum2⟩)
      else (st, idleResult st)
    else (st, idleResult st)
  else (st, idleResult st)

/-- The interval loop over one calendar day, threading `SimState`. -/
def runIntervals (p : BessParams) (intervalHours : ℚ) :
    SimState → List IntervalRow → SimState × List IntervalResult
  | st, [] => (st, [])
  | st, row :: rest =>
    let sr := stepInterval p intervalHours st row
    let tail := runIntervals p intervalHours sr.1 rest
    (tail.1, sr.2 :: tail.2)

/-- One day of the simulation: `soc = 0.0` at the start of each day (line 208)
while the cumulative net revenue is carried in. -/
def simulateDay (p : BessParams) (intervalHours : ℚ) (cum0 : ℚ)
    (rows : List IntervalRow) : SimState × List IntervalResult :=
  runIntervals p intervalHours ⟨0, cum0⟩ rows

/-- The day loop of `simulate_battery_operations` (lines 202-313): cumulative
net revenue starts at 0 and is threaded across days without reset. -/
def runDays (p : BessParams) (intervalHours : ℚ) :
    ℚ → List (List IntervalRow) → List (List IntervalResult)
  | _, [] => []
  | cum, d :: ds =>
    let r := simulateDay p intervalHours cum d
    r.2 :: runDays p intervalHours r.1.cumulative ds

/-- Embedding of `simulate_battery_operations` (lines 132-314) on day-grouped,
chronologically sorted input. -/
def simulate_battery_operations (p : BessParams) (intervalHours : ℚ)
    (days : List (List IntervalRow)) : List (List IntervalResult) :=
  runDays p intervalHours 0 days

/-! ## BESS metrics (`compute_bess_metrics`, lines 317-411) -/

/-- A row of the simulated data frame as read by `compute_bess_metrics`: the
calendar date (abstracted to a `Nat` identifier) and the simulator columns.
The input list is assumed sorted by `datetime_parsed`, as the simulator output
is; the source re-sorts before taking the last `net_revenue` (line 390). -/
structure BessRow where
  date : Nat
  charge_mwh : ℚ
  discharge_mwh : ℚ
  charge_cost : ℚ
  discharge_revenue : ℚ
  net_revenue : ℚ
deriving DecidableEq, Repr

/-- The metrics dictionary returned by `compute_bess_metrics`. -/
structure BessMetrics where
  total_charge_mwh : ℚ
  total_discharge_mwh : ℚ
  avg_charge_price : ℚ
  avg_discharge_price : ℚ
  avg_spread : ℚ
  total_revenue : ℚ
  daily_avg_revenue : ℚ
  total_cycles : Nat
deriving DecidableEq, Repr

/-- The all-zero metrics returned for an empty or inactive frame
(lines 332-342 and 347-357). -/
def zeroBessMetrics : BessMetrics :=
  ⟨0, 0, 0, 0, 0, 0, 0, 0⟩

/-- Embedding of `compute_bess_metrics` (lines 317-411).  Note that
`charge_cost` values are the (negative) values the simulator stored, so
`avg_charge_price` is `Σ charge_cost / Σ charge_mwh` with the stored signs. -/
def compute_bess_metrics (rows : List BessRow) : BessMetrics :=
  if rows.isEmpty then zeroBessMetrics
  else
    let active := rows.filter fun r => decide (0 < r.charge_mwh) || decide (0 < r.discharge_mwh)
    if active.isEmpty then zeroBessMetrics
    else
      let total_charge_mwh := (active.map (·.charge_mwh)).sum
      let total_discharge_mwh := (active.map (·.discharge_mwh)).sum
      let charge_hours := active.filter fun r => decide (0 < r.charge_mwh)
      let discharge_hours := active.filter fun r => decide (0 < r.discharge_mwh)
      let avg_charge_price :=
        if 0 < (charge_hours.map (·.charge_mwh)).sum then
          (charge_hours.map (·.charge_cost)).sum / (charge_hours.map (·.charge_mwh)).sum
        else 0
      let avg_discharge_price :=
        if 0 < (discharge_hours.map (·.discharge_mwh)).sum then
          (discharge_hours.map (·.discharge_revenue)).sum /
            (discharge_hours.map (·.discharge_mwh)).sum
        else 0
      let avg_spread :=
        if 0 < avg_charge_price ∧ 0 < avg_discharge_price then
          avg_discharge_price - avg_charge_price
        else 0
      let total_revenue := (rows.getLast?.map (·.net_revenue)).getD 0
      let num_days := (rows.map (·.date)).dedup.length
      let daily_avg_revenue := if 0 < num_days then total_revenue / (num_days : ℚ) else 0
      let total_cycles :=
        ((active.filter fun r => decide (0 < r.discharge_mwh)).map (·.date)).dedup.length
      ⟨total_charge_mwh, total_discharge_mwh, avg_charge_price, avg_discharge_price,
        avg_spread, total_revenue, daily_avg_revenue, total_cycles⟩

/-! ## Captured prices (`captured_prices.py`) -/

/-- A price-series row as read by `join_price_with_pv`: the join keys and
`price_eur_per_mwh`, `none` standing for SQL NULL. -/
structure PriceRow where
  month : Nat
  day : Nat
  hour : Nat
  price : Option ℚ
deriving DecidableEq, Repr

/-- A PV-profile row as produced by `load_pv_profile`. -/
structure PvRow where
  month : Nat
  day : Nat
  hour : Nat
  pv_mwh : ℚ
deriving DecidableEq, Repr

/-- A row of the merged frame returned by `join_price_with_pv`, including the
`pv_weighted_price_component` column added at line 333. -/
structure JoinedRow where
  month : Nat
  day : Nat
  hour : Nat
  price : ℚ
  pv_mwh : ℚ
  pv_weighted_price_component : ℚ
deriving DecidableEq, Repr

/-- Embedding of `join_price_with_pv` (`captured_prices.py`, lines 303-334).
A pandas inner merge emits, for each left row in order, one output row per
matching right row; this is the `flatMap` below. -/
def join_price_with_pv (prices : List PriceRow) (pv : List PvRow) : List JoinedRow :=
  if prices.isEmpty || pv.isEmpty then []
  else
    let filtered := prices.filter fun r => r.price.isSome
    if filtered.isEmpty then []
    else
      let has_feb29 := pv.any fun r => r.month == 2 && r.day == 29
      let filtered2 :=
        if has_feb29 then filtered
        else filtered.filter fun r => !(r.month == 2 && r.day == 29)
      filtered2.flatMap fun pr =>
        (pv.filter fun q => q.month == pr.month && q.day == pr.day && q.hour == pr.hour).map
          fun q =>
            let p := pr.price.getD 0
            ⟨pr.month, pr.day, pr.hour, p, q.pv_mwh, p * q.pv_mwh⟩

/-- Embedding of `compute_captured_price_aggregations` (`captured_prices.py`,
lines 337-360), abstracted over the grouping key (`group_cols`): groups are the
distinct key values, groups with non-positive PV sum are dropped (line 357),
and each kept group reports `sum(price*pv) / sum(pv)` using the stored
`pv_weighted_price_component` column. -/
def compute_captured_price_aggregations {K : Type} [DecidableEq K]
    (key : JoinedRow → K) (rows : List JoinedRow) : List (K × ℚ) :=
  ((rows.map key).dedup).filterMap fun k =>
    let grp := rows.filter fun r => decide (key r = k)
    let sum_pv := (grp.map (·.pv_mwh)).sum
    let sum_price_pv := (grp.map (·.pv_weighted_price_component)).sum
    if 0 < sum_pv then some (k, sum_price_pv / sum_pv) else none

/-! ## PPA metrics (`pages/06_PPA_Effective_Price.py`, `compute_ppa_metrics`, lines 56-106) -/

/-- A joined price/PV row as read by `compute_ppa_metrics`. -/
structure PpaRow where
  price : ℚ
  pv_mwh : ℚ
deriving DecidableEq, Repr

/-- The metrics dictionary returned by `compute_ppa_metrics` (the `df` entry is
the input with the `eligible` and `ppa_revenue` columns, returned here as the
two lists). -/
structure PpaMetrics where
  eligible : List ℚ
  ppa_revenue : List ℚ
  total_gen : ℚ
  total_rev : ℚ
  effective_price : ℚ
  pct_eligible : ℚ
deriving DecidableEq, Repr

/-- `eligible = (price_eur_per_mwh > 0).astype(int)` (line 82). -/
def eligibleFlag (r : PpaRow) : ℚ :=
  if 0 < r.price then 1 else 0

/-- Embedding of `compute_ppa_metrics` (lines 56-106). -/
def compute_ppa_metrics (rows : List PpaRow) (strike : ℚ) : PpaMetrics :=
  if rows.isEmpty then ⟨[], [], 0, 0, 0, 0⟩
  else
    let eligible := rows.map eligibleFlag
    let ppa_revenue := rows.map fun r => r.pv_mwh * strike * eligibleFlag r
    let total_gen := (rows.map (·.pv_mwh)).sum
    let total_rev := ppa_revenue.sum
    let effective_price := if 0 < total_gen then total_rev / total_gen else 0
    let eligible_gen := ((rows.filter fun r => decide (eligibleFlag r = 1)).map (·.pv_mwh)).sum
    let pct_eligible := if 0 < total_gen then eligible_gen / total_gen * 100 else 0
    ⟨eligible, ppa_revenue, total_gen, total_rev, effective_price, pct_eligible⟩

/-! ## OMIE file parsing (`backfill_omie.py`, `parse_omie_file`, lines 48-152) -/

/-- Gregorian leap-year test, as in Python `datetime`. -/
def isLeapYear (y : Nat) : Bool :=
  (y % 4 == 0 && y % 100 != 0) || y % 400 == 0

/-- Days in a month, as enforced by the Python `datetime` constructor. -/
def daysInMonth (y m : Nat) : Nat :=
  if m = 2 then (if isLeapYear y then 29 else 28)
  else if m = 4 ∨ m = 6 ∨ m = 9 ∨ m = 11 then 30
  else 31

/-- Validity domain of `datetime(year, month, day, hour, minute)`: the Python
constructor raises `ValueError` outside these bounds, which `parse_omie_file`
catches at line 145 and turns into skipping the line. -/
def datetimeValid (y m d h mi : Int) : Bool :=
  1 ≤ y && y ≤ 9999 && 1 ≤ m && m ≤ 12 && 1 ≤ d &&
    d ≤ (daysInMonth y.toNat m.toNat : Int) && 0 ≤ h && h ≤ 23 && 0 ≤ mi && mi ≤ 59

/-- A data line of an OMIE `.1` file after field splitting and numeric
conversion (`Year;Month;Day;Period;Price1;Price2;`, lines 96-107): lines with
fewer than 6 fields or non-numeric year/month/day/period are skipped by the
source and are not represented.  An absent price (`none`) models an empty
price field. -/
structure OmieLine where
  year : Int
  month : Int
  day : Int
  period : Int
  price_sp : Option ℚ
  price_pt : Option ℚ
deriving DecidableEq, Repr

/-- An output row of `parse_omie_file` (lines 135-144); the formatted
`datetime` string is determined by the numeric fields and is not repeated
here. -/
structure OmieRow where
  year : Int
  month : Int
  day : Int
  hour : Int
  minute : Int
  omie_sp_da_price : ℚ
  omie_pt_da_price : Option ℚ
deriving DecidableEq, Repr

/-- Maximum period index over the data lines, starting from 0 (lines 76-84). -/
def maxPeriod (lines : List OmieLine) : Int :=
  lines.foldl (fun m l => max m l.period) 0

/-- Per-line conversion of `parse_omie_file` (lines 96-147): requires the
Spain price, maps the period index to hour/minute according to the detected
resolution (Python `//` and `%` are floor division and modulo, i.e. `Int.fdiv`
and `Int.fmod`), discards 15-minute periods whose derived hour exceeds 23
(line 120) and hourly periods outside 0-23 (line 127), and skips lines whose
fields the `datetime` constructor rejects (caught at line 145). -/
def processOmieLine (is15min : Bool) (l : OmieLine) : Option OmieRow :=
  match l.price_sp with
  | none => none
  | some psp =>
    if is15min then
      let p0 : Int := l.period - 1
      let hour : Int := Int.fdiv p0 4
      let minute : Int := (Int.fmod p0 4) * 15
      if 23 < hour then none
      else if datetimeValid l.year l.month l.day hour minute then
        some ⟨l.year, l.month, l.day, hour, minute, psp, l.price_pt⟩
      else none
    else
      let hour : Int := l.period - 1
      if hour < 0 || 23 < hour then none
      else if datetimeValid l.year l.month l.day hour 0 then
        some ⟨l.year, l.month, l.day, hour, 0, psp, l.price_pt⟩
      else none

/-- Embedding of `parse_omie_file` (lines 48-152): resolution is 15-minute
exactly when the maximum period index exceeds 24 (line 87), and each data line
is converted independently. -/
def parse_omie_file (lines : List OmieLine) : List OmieRow :=
  lines.filterMap (processOmieLine (decide (24 < maxPeriod lines)))

/-! ## Timestamp parsing (`utils.py`, `parse_timestamp`, lines 10-36)

`parse_timestamp` normalizes a trailing `Z` to `+00:00`, runs
`datetime.fromisoformat`, and drops the timezone info from the result.
`datetime.fromisoformat` is modelled below on the ISO-8601 forms the
repository's data uses: `YYYY-MM-DD`, optionally followed by a `T` or space
separator and `HH[:MM[:SS[.ffffff]]]`, optionally followed by a `+HH:MM` or
`-HH:MM` offset.  The parser reads the wall-clock fields from the numeral
positions and returns the offset separately, mirroring the aware `datetime`
the Python call produces. -/

/-- A Python `datetime` value without timezone info (naive), as returned by
`parse_timestamp`. -/
structure PyDateTime where
  year : Nat
  month : Nat
  day : Nat
  hour : Nat
  minute : Nat
  second : Nat
  microsecond : Nat
deriving DecidableEq, Repr

/-- Numeric value of a decimal digit character. -/
def digitVal (c : Char) : Option Nat :=
  if c.isDigit then some (c.toNat - 48) else none

/-- Read exactly `n` decimal digits, accumulating left to right. -/
def readDigits : Nat → Nat → List Char → Option (Nat × List Char)
  | 0, acc, l => some (acc, l)
  | n + 1, acc, c :: rest =>
    match digitVal c with
    | some d => readDigits n (acc * 10 + d) rest
    | none => none
  | _ + 1, _, [] => none

/-- Split a leading run of decimal digits off a character list. -/
def takeDigits : List Char → List Nat × List Char
  | c :: rest =>
    match digitVal c with
    | some d =>
      let r := takeDigits rest
      (d :: r.1, r.2)
    | none => ([], c :: rest)
  | [] => ([], [])

/-- Microseconds denoted by a fractional-seconds digit run (digits beyond six
are truncated, shorter runs are zero-padded, as in `fromisoformat`). -/
def fracToMicro (ds : List Nat) : Nat :=
  (ds.take 6 ++ List.replicate (6 - ds.length) 0).foldl (fun a d => a * 10 + d) 0

/-- Parse the `HH[:MM[:SS[.ffffff]]]` part; returns hour, minute, second,
microsecond and the remaining characters. -/
def parseTimePart (l : List Char) : Option (Nat × Nat × Nat × Nat × List Char) :=
  match readDigits 2 0 l with
  | none => none
  | some (hh, rest) =>
    if hh > 23 then none
    else
      match rest with
      | ':' :: rest2 =>
        match readDigits 2 0 rest2 with
        | none => none
        | some (mm, rest3) =>
          if mm > 59 then none
          else
            match rest3 with
            | ':' :: rest4 =>
              match readDigits 2 0 rest4 with
              | none => none
              | some (ss, rest5) =>
                if ss > 59 then none
                else
                  match rest5 with
                  | '.' :: rest6 =>
                    let fr := takeDigits rest6
                    if fr.1.isEmpty then none
                    else some (hh, mm, ss, fracToMicro fr.1, fr.2)
                  | _ => some (hh, mm, ss, 0, rest5)
            | _ => some (hh, mm, 0, 0, rest3)
      | _ => some (hh, 0, 0, 0, rest)

/-- Parse a `+HH:MM` or `-HH:MM` UTC offset, which must consume the rest of
the string; the result is the offset in signed minutes. -/
def parseOffsetPart (sign : Int) (l : List Char) : Option Int :=
  match readDigits 2 0 l with
  | none => none
  | some (oh, rest) =>
    if oh > 23 then none
    else
      match rest with
      | ':' :: rest2 =>
        match readDigits 2 0 rest2 with
        | none => none
        | some (om, rest3) =>
          if om > 59 then none
          else if rest3.isEmpty then some (sign * ((oh : Int) * 60 + om)) else none
      | _ => none

/-- Model of `datetime.fromisoformat` on the forms described above: the
wall-clock fields and, when present, the UTC offset in minutes. -/
def fromisoformat (l : List Char) : Option (PyDateTime × Option Int) :=
  match readDigits 4 0 l with
  | none => none
  | some (y, r1) =>
    match r1 with
    | '-' :: r2 =>
      match readDigits 2 0 r2 with
      | none => none
      | some (mo, r3) =>
        if mo < 1 || mo > 12 then none
        else
          match r3 with
          | '-' :: r4 =>
            match readDigits 2 0 r4 with
            | none => none
            | some (d, r5) =>
              if d < 1 || d > daysInMonth y mo then none
              else
                match r5 with
                | [] => some (⟨y, mo, d, 0, 0, 0, 0⟩, none)
                | sep :: r6 =>
                  if sep = 'T' || sep = ' ' then
                    match parseTimePart r6 with
                    | none => none
                    | some (hh, mm, ss, us, r7) =>
                      match r7 with
                      | [] => some (⟨y, mo, d, hh, mm, ss, us⟩, none)
                      | '+' :: r8 =>
                        match parseOffsetPart 1 r8 with
                        | none => none
                        | some off => some (⟨y, mo, d, hh, mm, ss, us⟩, some off)
                      | '-' :: r8 =>
                        match parseOffsetPart (-1) r8 with
                        | none => none
                        | some off => some (⟨y, mo, d, hh, mm, ss, us⟩, some off)
                      | _ => none
                  else none
          | _ => none
    | _ => none

/-- Embedding of `parse_timestamp` (`utils.py`, lines 10-36), split into its
three stages.  First the `Z` normalization of lines 29-30: replace a trailing
`Z` by `+00:00`. -/
def normalizeZ (cs : List Char) : List Char :=
  if cs.getLast? == some 'Z' then cs.dropLast ++ ("+00:00".data) else cs

/-- The `fromisoformat` call applied after `Z` normalization (lines 29-32):
wall-clock fields and the parsed UTC offset, before the offset is dropped. -/
def parse_timestamp_aware (s : String) : Option (PyDateTime × Option Int) :=
  fromisoformat (normalizeZ s.data)

/-- Dropping the timezone info (line 36): only the wall-clock fields remain. -/
def parse_timestamp (s : String) : Option PyDateTime :=
  (parse_timestamp_aware s).map (·.1)

/-! ## Theorems -/

/-- Failure of `leb` one way round is strict order the other way round
(Python `not (b <= a)` is `a < b` for `time` values). -/
theorem TimeHM.leb_eq_false_iff_ltb (a b : TimeHM) :
    b.leb a = false ↔ a.ltb b = true := by
  simp only [TimeHM.leb, TimeHM.ltb, Bool.or_eq_false_iff, Bool.or_eq_true,
    Bool.and_eq_false_iff, Bool.and_eq_true, beq_iff_eq, decide_eq_false_iff_not,
    decide_eq_true_eq, beq_eq_false_iff_ne, ne_eq]
  omega

/-- C2, counterexample: with a 2-hour battery, the configuration
charge1 = 08:00, discharge1 = 10:00, charge2 = 11:00, discharge2 = 13:00 is
accepted by `validate_cycles` (since cycle 2 charge start 11:00 is after
cycle 1 discharge start 10:00), but under the claimed duration-aware rule the
cycle windows [08:00, 12:00) and [11:00, 15:00) overlap and cycle 2 neither
precedes cycle 1 charge start nor follows cycle 1 discharge end 12:00, so the
claim says it must be rejected. -/
theorem validate_cycles_duration_counterexample :
    (validate_cycles ⟨8, 0⟩ ⟨10, 0⟩ (some ⟨11, 0⟩) (some ⟨13, 0⟩)).1 = true ∧
      validate_cycles_claim 120 ⟨8, 0⟩ ⟨10, 0⟩ ⟨11, 0⟩ ⟨13, 0⟩ = false := by
  constructor <;> rfl

/-- C2, amended: cycle validation fails exactly when a cycle's charge start is
not strictly before its discharge start or, with two cycles configured,
cycle 2's discharge start is after cycle 1's charge start and cycle 2's charge
start is before cycle 1's discharge start; acceptance compares the configured
start times only (the battery duration is not consulted, so acceptance
requires cycle 2's discharge start at or before cycle 1's charge start, or
cycle 2's charge start at or after cycle 1's discharge start).  The claim's
two example configurations are rejected and accepted as stated. -/
theorem validate_cycles_spec :
    (∀ c1 d1 : TimeHM, (validate_cycles c1 d1 none none).1 = true ↔ c1.ltb d1 = true) ∧
    (∀ c1 d1 c2 d2 : TimeHM,
      (validate_cycles c1 d1 (some c2) (some d2)).1 = true ↔
        (c1.ltb d1 = true ∧ c2.ltb d2 = true ∧
          (d2.leb c1 = true ∨ d1.leb c2 = true))) ∧
    (validate_cycles ⟨8, 0⟩ ⟨10, 0⟩ (some ⟨9, 0⟩) (some ⟨11, 0⟩)).1 = false ∧
    (validate_cycles ⟨8, 0⟩ ⟨10, 0⟩ (some ⟨12, 0⟩) (some ⟨14, 0⟩)).1 = true := by
  refine ⟨?_, ?_, rfl, rfl⟩
  · intro c1 d1
    simp only [validate_cycles]
    split_ifs with h1
    · rw [← TimeHM.leb_eq_false_iff_ltb]
      simp [h1]
    · rw [← TimeHM.leb_eq_false_iff_ltb]
      simp [h1]
  · intro c1 d1 c2 d2
    simp only [validate_cycles]
    split_ifs with h1 h2 h3 h4 <;>
      simp_all [← TimeHM.leb_eq_false_iff_ltb, Bool.not_eq_true]

/-- C8: for non-negative PV output, the PPA settlement marks an interval
eligible iff its price is strictly positive (price exactly 0 not eligible),
computes per-interval revenue `output * strike * eligible`, and reports
`effective_price = total_rev / total_gen` with 0 when total generation is 0;
the price series [-5, 0, 5, 10] with unit output and strike 20 yields
eligibility [0, 0, 1, 1], total revenue 40 and effective price 10. -/
theorem compute_ppa_metrics_spec (rows : List PpaRow) (strike : ℚ)
    (hpv : ∀ r ∈ rows, 0 ≤ r.pv_mwh) :
    (compute_ppa_metrics rows strike).eligible =
        rows.map (fun r => if 0 < r.price then (1 : ℚ) else 0) ∧
    (compute_ppa_metrics rows strike).ppa_revenue =
        rows.map (fun r => r.pv_mwh * strike * (if 0 < r.price then (1 : ℚ) else 0)) ∧
    (compute_ppa_metrics rows strike).total_gen = (rows.map (·.pv_mwh)).sum ∧
    ((compute_ppa_metrics rows strike).total_gen = 0 →
        (compute_ppa_metrics rows strike).effective_price = 0) ∧
    ((compute_ppa_metrics rows strike).total_gen ≠ 0 →
        (compute_ppa_metrics rows strike).effective_price =
          (compute_ppa_metrics rows strike).total_rev /
            (compute_ppa_metrics rows strike).total_gen) ∧
    compute_ppa_metrics [⟨-5, 1⟩, ⟨0, 1⟩, ⟨5, 1⟩, ⟨10, 1⟩] 20 =
      ⟨[0, 0, 1, 1], [0, 0, 20, 20], 4, 40, 10, 50⟩ := by
  have hsum : 0 ≤ (rows.map (·.pv_mwh)).sum := by
    apply List.sum_nonneg
    intro x hx
    obtain ⟨r, hr, rfl⟩ := List.mem_map.1 hx
    exact hpv r hr
  cases rows with
  | nil =>
    refine ⟨rfl, rfl, rfl, fun _ => rfl, fun h => absurd rfl h, ?_⟩
    norm_num [compute_ppa_metrics, eligibleFlag]
  | cons r0 rest =>
    refine ⟨rfl, rfl, rfl, ?_, ?_, ?_⟩
    · intro hg
      simp only [compute_ppa_metrics, List.isEmpty_cons, Bool.false_eq_true, if_false] at hg ⊢
      rw [hg]
      norm_num
    · intro hg
      simp only [compute_ppa_metrics, List.isEmpty_cons, Bool.false_eq_true, if_false] at hg ⊢
      have hpos : 0 < ((r0 :: rest).map (·.pv_mwh)).sum := lt_of_le_of_ne hsum (Ne.symm hg)
      rw [if_pos hpos]
    · norm_num [compute_ppa_metrics, eligibleFlag]

/-- C8 witness: the general part of `compute_ppa_metrics_spec` instantiated on
the claim's example series. -/
theorem compute_ppa_metrics_spec_witness :
    (∀ r ∈ ([⟨-5, 1⟩, ⟨0, 1⟩, ⟨5, 1⟩, ⟨10, 1⟩] : List PpaRow), 0 ≤ r.pv_mwh) ∧
    (compute_ppa_metrics [⟨-5, 1⟩, ⟨0, 1⟩, ⟨5, 1⟩, ⟨10, 1⟩] 20).eligible =
      ([⟨-5, 1⟩, ⟨0, 1⟩, ⟨5, 1⟩, ⟨10, 1⟩] : List PpaRow).map
        (fun r => if 0 < r.price then (1 : ℚ) else 0) := by
  have h : ∀ r ∈ ([⟨-5, 1⟩, ⟨0, 1⟩, ⟨5, 1⟩, ⟨10, 1⟩] : List PpaRow), 0 ≤ r.pv_mwh := by
    intro r hr
    fin_cases hr <;> norm_num
  exact ⟨h, (compute_ppa_metrics_spec [⟨-5, 1⟩, ⟨0, 1⟩, ⟨5, 1⟩, ⟨10, 1⟩] 20 h).1⟩

/-- C9: the timestamp normalizer returns the naive wall-clock fields exactly
as parsed from the numeral positions, discarding any parsed offset rather
than shifting the clock; distinct offsets (or none, or `Z`) on the same
numerals give the same output, `2015-01-01T01:00:00+01:00` maps to wall-clock
2015-01-01 01:00:00 (not 00:00:00), and unparseable strings give `none`. -/
theorem parse_timestamp_spec :
    (∀ (s : String) (dt : PyDateTime) (off : Option Int),
        parse_timestamp_aware s = some (dt, off) → parse_timestamp s = some dt) ∧
    (∀ s : String, parse_timestamp_aware s = none → parse_timestamp s = none) ∧
    parse_timestamp "2015-01-01T01:00:00+01:00" = some ⟨2015, 1, 1, 1, 0, 0, 0⟩ ∧
    parse_timestamp "2015-01-01T01:00:00Z" = some ⟨2015, 1, 1, 1, 0, 0, 0⟩ ∧
    parse_timestamp "2015-01-01T01:00:00+05:00" = some ⟨2015, 1, 1, 1, 0, 0, 0⟩ ∧
    parse_timestamp "2015-01-01T01:00:00" = some ⟨2015, 1, 1, 1, 0, 0, 0⟩ ∧
    parse_timestamp "2015-01-01T00:00:00.000+01:00" = some ⟨2015, 1, 1, 0, 0, 0, 0⟩ ∧
    parse_timestamp "not-a-date" = none := by
  refine ⟨?_, ?_, by decide, by decide, by decide, by decide, by decide, by decide⟩
  · intro s dt off h
    simp [parse_timestamp, h]
  · intro s h
    simp [parse_timestamp, h]

/-- C9 witness: `parse_timestamp_spec` applied to the claim's example, with
the aware parse exhibited concretely (offset +60 minutes, discarded). -/
theorem parse_timestamp_spec_witness :
    parse_timestamp_aware "2015-01-01T01:00:00+01:00" =
        some (⟨2015, 1, 1, 1, 0, 0, 0⟩, some 60) ∧
    parse_timestamp "2015-01-01T01:00:00+01:00" = some ⟨2015, 1, 1, 1, 0, 0, 0⟩ :=
  ⟨by decide, parse_timestamp_spec.1 "2015-01-01T01:00:00+01:00"
    ⟨2015, 1, 1, 1, 0, 0, 0⟩ (some 60) (by decide)⟩

/-- A line without a Spain price is always skipped. -/
theorem processOmieLine_none (l : OmieLine) (hsp : l.price_sp = none) (b : Bool) :
    processOmieLine b l = none := by
  unfold processOmieLine
  rw [hsp]

/-- Unfolding of the 15-minute branch of `processOmieLine` when the Spain
price is present. -/
theorem processOmieLine_15min (l : OmieLine) (psp : ℚ)
    (hsp : l.price_sp = some psp) :
    processOmieLine true l =
      if 23 < Int.fdiv (l.period - 1) 4 then none
      else if datetimeValid l.year l.month l.day (Int.fdiv (l.period - 1) 4)
          (Int.fmod (l.period - 1) 4 * 15) then
        some ⟨l.year, l.month, l.day, Int.fdiv (l.period - 1) 4,
          Int.fmod (l.period - 1) 4 * 15, psp, l.price_pt⟩
      else none := by
  unfold processOmieLine
  rw [hsp]
  rfl

/-- C10: when the maximum period index in an OMIE file exceeds 24, every
emitted row derives from some line via hour = (period-1) // 4 and
minute = ((period-1) % 4) * 15 with hour at most 23; lines whose derived hour
exceeds 23 are discarded; period 96 maps to 23:45 and period 1 to 00:00. -/
theorem parse_omie_file_spec (lines : List OmieLine)
    (hmax : 24 < maxPeriod lines) :
    (∀ row ∈ parse_omie_file lines, ∃ l ∈ lines,
        l.price_sp = some row.omie_sp_da_price ∧
        row.hour = Int.fdiv (l.period - 1) 4 ∧
        row.minute = Int.fmod (l.period - 1) 4 * 15 ∧
        row.hour ≤ 23) ∧
    (∀ l ∈ lines, 23 < Int.fdiv (l.period - 1) 4 → processOmieLine true l = none) ∧
    parse_omie_file [⟨2025, 10, 5, 96, some 50, some 48⟩, ⟨2025, 10, 5, 1, some 30, none⟩,
        ⟨2025, 10, 5, 100, some 10, some 10⟩] =
      [⟨2025, 10, 5, 23, 45, 50, some 48⟩, ⟨2025, 10, 5, 0, 0, 30, none⟩] := by
  refine ⟨?_, ?_, by decide⟩
  · intro row hrow
    unfold parse_omie_file at hrow
    rw [decide_eq_true hmax] at hrow
    obtain ⟨l, hl, hproc⟩ := List.mem_filterMap.1 hrow
    refine ⟨l, hl, ?_⟩
    rcases hsp : l.price_sp with _ | psp
    · rw [processOmieLine_none l hsp] at hproc
      exact absurd hproc (by simp)
    · rw [processOmieLine_15min l psp hsp] at hproc
      by_cases h1 : 23 < Int.fdiv (l.period - 1) 4
      · rw [if_pos h1] at hproc
        exact absurd hproc (by simp)
      · rw [if_neg h1] at hproc
        by_cases h2 : datetimeValid l.year l.month l.day (Int.fdiv (l.period - 1) 4)
            (Int.fmod (l.period - 1) 4 * 15) = true
        · rw [if_pos h2] at hproc
          injection hproc with h
          subst h
          first
          | exact ⟨hsp, rfl, rfl, not_lt.1 h1⟩
          | exact ⟨rfl, rfl, rfl, not_lt.1 h1⟩
        · rw [if_neg h2] at hproc
          exact absurd hproc (by simp)
  · intro l _ hdiv
    unfold processOmieLine
    rcases l.price_sp with _ | psp
    · rfl
    · simp [hdiv]

/-- C10 witness: `parse_omie_file_spec` applied to a concrete file whose
maximum period index is 100. -/
theorem parse_omie_file_spec_witness :
    24 < maxPeriod [⟨2025, 10, 5, 96, some 50, some 48⟩, ⟨2025, 10, 5, 1, some 30, none⟩,
        ⟨2025, 10, 5, 100, some 10, some 10⟩] ∧
    ∀ row ∈ parse_omie_file [⟨2025, 10, 5, 96, some 50, some 48⟩,
        ⟨2025, 10, 5, 1, some 30, none⟩, ⟨2025, 10, 5, 100, some 10, some 10⟩],
      ∃ l ∈ ([⟨2025, 10, 5, 96, some 50, some 48⟩, ⟨2025, 10, 5, 1, some 30, none⟩,
        ⟨2025, 10, 5, 100, some 10, some 10⟩] : List OmieLine),
        l.price_sp = some row.omie_sp_da_price ∧
        row.hour = Int.fdiv (l.period - 1) 4 ∧
        row.minute = Int.fmod (l.period - 1) 4 * 15 ∧
        row.hour ≤ 23 :=
  ⟨by decide, (parse_omie_file_spec _ (by decide)).1⟩

/-- Membership characterization of `compute_captured_price_aggregations`:
an entry is emitted exactly for a key occurring in the rows whose group has a
strictly positive PV sum, with the quotient value. -/
theorem captured_mem_iff {K : Type} [DecidableEq K] (key : JoinedRow → K)
    (rows : List JoinedRow) (e : K × ℚ) :
    e ∈ compute_captured_price_aggregations key rows ↔
      e.1 ∈ (rows.map key).dedup ∧
      0 < ((rows.filter fun r => decide (key r = e.1)).map (·.pv_mwh)).sum ∧
      e.2 = ((rows.filter fun r => decide (key r = e.1)).map
              (·.pv_weighted_price_component)).sum /
            ((rows.filter fun r => decide (key r = e.1)).map (·.pv_mwh)).sum := by
  unfold compute_captured_price_aggregations
  rw [List.mem_filterMap]
  constructor
  · rintro ⟨k0, hk0, hf⟩
    simp only at hf
    by_cases hpos : 0 < ((rows.filter fun r => decide (key r = k0)).map (·.pv_mwh)).sum
    · rw [if_pos hpos] at hf
      injection hf with h
      subst h
      exact ⟨hk0, hpos, rfl⟩
    · rw [if_neg hpos] at hf
      exact absurd hf (by simp)
  · rintro ⟨hmem, hpos, hval⟩
    refine ⟨e.1, hmem, ?_⟩
    simp only
    rw [if_pos hpos, ← hval]

/-- C7: for joined rows (whose weighted component is price times output) and
any grouping, a group whose summed PV output is at most 0 is absent from the
captured-price aggregation, and a group with positive summed output is
reported with captured price sum(price*output)/sum(output). -/
theorem compute_captured_price_aggregations_spec {K : Type} [DecidableEq K]
    (key : JoinedRow → K) (rows : List JoinedRow)
    (hcomp : ∀ r ∈ rows, r.pv_weighted_price_component = r.price * r.pv_mwh)
    (k : K) :
    (((rows.filter fun r => decide (key r = k)).map (·.pv_mwh)).sum ≤ 0 →
      ∀ e ∈ compute_captured_price_aggregations key rows, e.1 ≠ k) ∧
    (0 < ((rows.filter fun r => decide (key r = k)).map (·.pv_mwh)).sum →
      (k, ((rows.filter fun r => decide (key r = k)).map fun r => r.price * r.pv_mwh).sum /
          ((rows.filter fun r => decide (key r = k)).map (·.pv_mwh)).sum) ∈
        compute_captured_price_aggregations key rows) := by
  have hsame : ((rows.filter fun r => decide (key r = k)).map
      (·.pv_weighted_price_component)).sum =
      ((rows.filter fun r => decide (key r = k)).map fun r => r.price * r.pv_mwh).sum := by
    congr 1
    apply List.map_congr_left
    intro r hr
    exact hcomp r (List.mem_of_mem_filter hr)
  constructor
  · intro hle e he hk
    obtain ⟨-, hpos, -⟩ := (captured_mem_iff key rows e).1 he
    rw [hk] at hpos
    exact absurd hpos (not_lt.2 hle)
  · intro hpos
    refine (captured_mem_iff key rows _).2 ⟨?_, hpos, by rw [hsame]⟩
    have hne : (rows.filter fun r => decide (key r = k)) ≠ [] := by
      intro hnil
      rw [hnil] at hpos
      exact absurd hpos (by norm_num)
    obtain ⟨r, hr⟩ := List.exists_mem_of_ne_nil _ hne
    have hrr := List.mem_filter.1 hr
    rw [List.mem_dedup]
    have hkey : key r = k := by
      have := hrr.2
      simpa using this
    exact hkey ▸ List.mem_map_of_mem key hrr.1

/-- C7 witness: `compute_captured_price_aggregations_spec` on two concrete
groups keyed by month, one with positive PV (reported with the weighted mean)
and one with zero PV (absent). -/
theorem compute_captured_price_aggregations_spec_witness :
    ((([⟨1, 1, 0, 10, 4, 40⟩, ⟨1, 1, 1, 20, 1, 20⟩, ⟨2, 1, 0, 30, 0, 0⟩] :
        List JoinedRow).filter fun r => decide (r.month = 2)).map (·.pv_mwh)).sum ≤ 0 ∧
    (∀ e ∈ compute_captured_price_aggregations (·.month)
        [⟨1, 1, 0, 10, 4, 40⟩, ⟨1, 1, 1, 20, 1, 20⟩, ⟨2, 1, 0, 30, 0, 0⟩], e.1 ≠ 2) ∧
    ((1 : Nat), (12 : ℚ)) ∈ compute_captured_price_aggregations (·.month)
        [⟨1, 1, 0, 10, 4, 40⟩, ⟨1, 1, 1, 20, 1, 20⟩, ⟨2, 1, 0, 30, 0, 0⟩] := by
  have hcomp : ∀ r ∈ ([⟨1, 1, 0, 10, 4, 40⟩, ⟨1, 1, 1, 20, 1, 20⟩,
      ⟨2, 1, 0, 30, 0, 0⟩] : List JoinedRow),
      r.pv_weighted_price_component = r.price * r.pv_mwh := by
    intro r hr
    fin_cases hr <;> norm_num
  have hle : ((([⟨1, 1, 0, 10, 4, 40⟩, ⟨1, 1, 1, 20, 1, 20⟩, ⟨2, 1, 0, 30, 0, 0⟩] :
      List JoinedRow).filter fun r => decide (r.month = 2)).map (·.pv_mwh)).sum ≤ 0 := by
    norm_num [List.filter]
  have h2 := (compute_captured_price_aggregations_spec (·.month)
    [⟨1, 1, 0, 10, 4, 40⟩, ⟨1, 1, 1, 20, 1, 20⟩, ⟨2, 1, 0, 30, 0, 0⟩] hcomp 1).2
    (by norm_num [List.filter])
  refine ⟨hle,
    (compute_captured_price_aggregations_spec (·.month)
      [⟨1, 1, 0, 10, 4, 40⟩, ⟨1, 1, 1, 20, 1, 20⟩, ⟨2, 1, 0, 30, 0, 0⟩] hcomp 2).1 hle, ?_⟩
  have hv : ((([⟨1, 1, 0, 10, 4, 40⟩, ⟨1, 1, 1, 20, 1, 20⟩, ⟨2, 1, 0, 30, 0, 0⟩] :
      List JoinedRow).filter fun r => decide (r.month = 1)).map
        fun r => r.price * r.pv_mwh).sum /
      ((([⟨1, 1, 0, 10, 4, 40⟩, ⟨1, 1, 1, 20, 1, 20⟩, ⟨2, 1, 0, 30, 0, 0⟩] :
      List JoinedRow).filter fun r => decide (r.month = 1)).map (·.pv_mwh)).sum = 12 := by
    norm_num [List.filter]
  rw [← hv]
  exact h2

/-- C1, evaluation at the failing input: a one-day simulation (10 MW, 2 h,
eta 0.9, charge 08:00, discharge 12:00) charging 20 MWh at price 10 and
discharging 18 MWh at price 50.  `compute_bess_metrics` returns
`avg_charge_price = -10` (the signed stored charge cost divided by energy,
not the claimed magnitude 10) and, since the guard compares the signed value
`avg_charge_price > 0`, `avg_spread = 0` even though both sides have
activity — the claim (and the comments at lines 367-384 of the source, which
describe the spread as the price difference) expect charge price 10 and
spread 40. -/
theorem compute_bess_metrics_sign_behavior :
    simulate_battery_operations ⟨10, 2, 9 / 10, ⟨8, 0⟩, ⟨12, 0⟩, none⟩ 1
        [[⟨480, 10⟩, ⟨540, 10⟩, ⟨720, 50⟩, ⟨780, 50⟩]] =
      [[⟨10, 0, 10, -100, 0, -100⟩, ⟨10, 0, 20, -100, 0, -200⟩,
        ⟨0, 10, 80 / 9, 0, 500, 300⟩, ⟨0, 8, 0, 0, 400, 700⟩]] ∧
    compute_bess_metrics [⟨0, 10, 0, -100, 0, -100⟩, ⟨0, 10, 0, -100, 0, -200⟩,
        ⟨0, 0, 10, 0, 500, 300⟩, ⟨0, 0, 8, 0, 400, 700⟩] =
      ⟨20, 18, -10, 50, 0, 700, 700, 1⟩ := by
  constructor
  · norm_num [simulate_battery_operations, runDays, simulateDay, runIntervals, stepInterval,
      idleResult, BessParams.isCharging, BessParams.isDischarging, inWindow,
      BessParams.capacity_mwh, TimeHM.toMinutes]
  · norm_num [compute_bess_metrics, zeroBessMetrics, List.dedup, List.filter,
      BessMetrics.mk.injEq]

/-- C4, counterexample: with charge1 = 08:00, discharge1 = 09:00 and a 2-hour
battery, the 09:00 interval lies in both the charge window [08:00, 10:00) and
the discharge window [09:00, 11:00); the claim says it is treated as
charging, but the simulator leaves it idle: after charging 10 MWh at 08:00,
the 09:00 row has `charge_mwh = 0` and `discharge_mwh = 0` with the state of
charge and cumulative revenue unchanged (under the claim it would charge
another 10 MWh). -/
theorem simulate_battery_both_windows_counterexample :
    BessParams.isCharging ⟨10, 2, 9 / 10, ⟨8, 0⟩, ⟨9, 0⟩, none⟩ 540 = true ∧
    BessParams.isDischarging ⟨10, 2, 9 / 10, ⟨8, 0⟩, ⟨9, 0⟩, none⟩ 540 = true ∧
    simulate_battery_operations ⟨10, 2, 9 / 10, ⟨8, 0⟩, ⟨9, 0⟩, none⟩ 1
        [[⟨480, 10⟩, ⟨540, 50⟩]] =
      [[⟨10, 0, 10, -100, 0, -100⟩, ⟨0, 0, 10, 0, 0, -100⟩]] := by
  refine ⟨?_, ?_, ?_⟩ <;>
    norm_num [simulate_battery_operations, runDays, simulateDay, runIntervals, stepInterval,
      idleResult, BessParams.isCharging, BessParams.isDischarging, inWindow,
      BessParams.capacity_mwh, TimeHM.toMinutes]

/-- C4, amended: an interval whose start falls simultaneously inside a
configured charge window and a configured discharge window is treated as
idle, not as charging: neither branch of the simulator runs, so no energy
moves, no cash flows, and the state is unchanged. -/
theorem stepInterval_both_windows_idle (p : BessParams) (intervalHours : ℚ)
    (st : SimState) (row : IntervalRow)
    (hc : p.isCharging row.timeMin = true)
    (hd : p.isDischarging row.timeMin = true) :
    stepInterval p intervalHours st row = (st, idleResult st) := by
  unfold stepInterval
  rw [hc, hd]
  rfl

/-- C4 witness: `stepInterval_both_windows_idle` at the 09:00 interval of the
counterexample configuration, with 10 MWh already stored. -/
theorem stepInterval_both_windows_idle_witness :
    BessParams.isCharging ⟨10, 2, 9 / 10, ⟨8, 0⟩, ⟨9, 0⟩, none⟩ 540 = true ∧
    stepInterval ⟨10, 2, 9 / 10, ⟨8, 0⟩, ⟨9, 0⟩, none⟩ 1 ⟨10, -100⟩ ⟨540, 50⟩ =
      (⟨10, -100⟩, idleResult ⟨10, -100⟩) :=
  ⟨by norm_num [BessParams.isCharging, inWindow, TimeHM.toMinutes],
    stepInterval_both_windows_idle _ 1 ⟨10, -100⟩ ⟨540, 50⟩
      (by norm_num [BessParams.isCharging, inWindow, TimeHM.toMinutes])
      (by norm_num [BessParams.isDischarging, inWindow, TimeHM.toMinutes])⟩

/-- C5: in every interval with non-negative power and in-range state of
charge, if charging and not discharging the energy added is
min(power * interval_duration, capacity_mwh - soc), the cost is
-(energy * price) and soc increases by that energy; if discharging and not
charging the energy delivered is min(power * interval_duration, soc * eta),
the battery loses delivered/eta and the revenue is delivered * price — the
efficiency enters only at discharge. -/
theorem stepInterval_energy_spec (p : BessParams) (intervalHours : ℚ)
    (st : SimState) (row : IntervalRow)
    (hmw : 0 ≤ p.capacity_mw) (hih : 0 ≤ intervalHours)
    (hsoc0 : 0 ≤ st.soc) (hsoc1 : st.soc ≤ p.capacity_mwh)
    (heff : 0 < p.efficiency) :
    (p.isCharging row.timeMin = true → p.isDischarging row.timeMin = false →
      (stepInterval p intervalHours st row).2.charge_mwh =
          min (p.capacity_mw * intervalHours) (p.capacity_mwh - st.soc) ∧
      (stepInterval p intervalHours st row).2.charge_cost =
          -((stepInterval p intervalHours st row).2.charge_mwh * row.price) ∧
      (stepInterval p intervalHours st row).1.soc =
          st.soc + (stepInterval p intervalHours st row).2.charge_mwh) ∧
    (p.isDischarging row.timeMin = true → p.isCharging row.timeMin = false →
      (stepInterval p intervalHours st row).2.discharge_mwh =
          min (p.capacity_mw * intervalHours) (st.soc * p.efficiency) ∧
      (stepInterval p intervalHours st row).1.soc =
          st.soc - (stepInterval p intervalHours st row).2.discharge_mwh / p.efficiency ∧
      (stepInterval p intervalHours st row).2.discharge_revenue =
          (stepInterval p intervalHours st row).2.discharge_mwh * row.price) := by
  have hce0 : 0 ≤ p.capacity_mw * intervalHours := mul_nonneg hmw hih
  constructor
  · intro hc hd
    have hcap0 : 0 ≤ p.capacity_mwh - st.soc := sub_nonneg.2 hsoc1
    have hmin0 : 0 ≤ min (p.capacity_mw * intervalHours) (p.capacity_mwh - st.soc) :=
      le_min hce0 hcap0
    unfold stepInterval
    rw [hc, hd]
    simp only [Bool.not_false, Bool.and_self, eq_self_iff_true, if_true]
    split_ifs with h1 h2
    · exact ⟨rfl, rfl, rfl⟩
    · have hmin : min (p.capacity_mw * intervalHours) (p.capacity_mwh - st.soc) = 0 :=
        le_antisymm (not_lt.1 h2) hmin0
      refine ⟨hmin.symm, ?_, ?_⟩ <;> simp [idleResult]
    · have hsub : p.capacity_mwh - st.soc = 0 := by
        have := le_antisymm hsoc1 (not_lt.1 h1)
        rw [this]
        ring
      have hmin : min (p.capacity_mw * intervalHours) (p.capacity_mwh - st.soc) = 0 := by
        rw [hsub]
        exact min_eq_right hce0
      refine ⟨hmin.symm, ?_, ?_⟩ <;> simp [idleResult]
  · intro hd hc
    have hav0 : 0 ≤ st.soc * p.efficiency := mul_nonneg hsoc0 heff.le
    have hmin0 : 0 ≤ min (p.capacity_mw * intervalHours) (st.soc * p.efficiency) :=
      le_min hce0 hav0
    unfold stepInterval
    rw [hc, hd]
    simp only [Bool.false_and, Bool.not_false, Bool.and_self, Bool.false_eq_true, if_false,
      eq_self_iff_true, if_true]
    split_ifs with h1 h2
    · exact ⟨rfl, rfl, rfl⟩
    · have hmin : min (p.capacity_mw * intervalHours) (st.soc * p.efficiency) = 0 :=
        le_antisymm (not_lt.1 h2) hmin0
      refine ⟨hmin.symm, ?_, ?_⟩ <;> simp [idleResult]
    · have hsoceq : st.soc = 0 := le_antisymm (not_lt.1 h1) hsoc0
      have hmin : min (p.capacity_mw * intervalHours) (st.soc * p.efficiency) = 0 := by
        rw [hsoceq, zero_mul]
        exact min_eq_right hce0
      refine ⟨hmin.symm, ?_, ?_⟩ <;> simp [idleResult]

/-- C5 witness: `stepInterval_energy_spec` at a charging interval (08:00,
empty battery) and a discharging interval (12:00, 10 MWh stored) of the
10 MW / 2 h / eta 0.9 configuration. -/
theorem stepInterval_energy_spec_witness :
    (stepInterval ⟨10, 2, 9 / 10, ⟨8, 0⟩, ⟨12, 0⟩, none⟩ 1 ⟨0, 0⟩ ⟨480, 10⟩).2.charge_mwh =
      min ((10 : ℚ) * 1) (BessParams.capacity_mwh ⟨10, 2, 9 / 10, ⟨8, 0⟩, ⟨12, 0⟩, none⟩ - 0) ∧
    (stepInterval ⟨10, 2, 9 / 10, ⟨8, 0⟩, ⟨12, 0⟩, none⟩ 1 ⟨10, -200⟩ ⟨720, 50⟩).2.discharge_mwh =
      min ((10 : ℚ) * 1) (10 * (9 / 10)) := by
  have h1 := (stepInterval_energy_spec ⟨10, 2, 9 / 10, ⟨8, 0⟩, ⟨12, 0⟩, none⟩ 1 ⟨0, 0⟩ ⟨480, 10⟩
    (by norm_num) (by norm_num) (by norm_num) (by norm_num [BessParams.capacity_mwh])
    (by norm_num)).1
    (by norm_num [BessParams.isCharging, inWindow, TimeHM.toMinutes])
    (by norm_num [BessParams.isDischarging, inWindow, TimeHM.toMinutes])
  have h2 := (stepInterval_energy_spec ⟨10, 2, 9 / 10, ⟨8, 0⟩, ⟨12, 0⟩, none⟩ 1 ⟨10, -200⟩
    ⟨720, 50⟩ (by norm_num) (by norm_num) (by norm_num) (by norm_num [BessParams.capacity_mwh])
    (by norm_num)).2
    (by norm_num [BessParams.isDischarging, inWindow, TimeHM.toMinutes])
    (by norm_num [BessParams.isCharging, inWindow, TimeHM.toMinutes])
  exact ⟨h1.1, h2.1⟩

/-- The `battery_soc` column written by an interval step is the state of
charge the step leaves behind. -/
theorem stepInterval_battery_soc (p : BessParams) (ih : ℚ) (st : SimState)
    (row : IntervalRow) :
    (stepInterval p ih st row).2.battery_soc = (stepInterval p ih st row).1.soc := by
  simp only [stepInterval]
  split_ifs <;> rfl

/-- The `net_revenue` column written by an interval step is the cumulative
net revenue the step leaves behind. -/
theorem stepInterval_net_revenue (p : BessParams) (ih : ℚ) (st : SimState)
    (row : IntervalRow) :
    (stepInterval p ih st row).2.net_revenue = (stepInterval p ih st row).1.cumulative := by
  simp only [stepInterval]
  split_ifs <;> rfl

/-- Each interval step advances the cumulative net revenue by exactly the
row's signed cash flow. -/
theorem stepInterval_cumulative (p : BessParams) (ih : ℚ) (st : SimState)
    (row : IntervalRow) :
    (stepInterval p ih st row).1.cumulative =
      st.cumulative + cashflow (stepInterval p ih st row).2 := by
  simp only [stepInterval]
  split_ifs <;> simp [idleResult, cashflow]

/-- The state of charge evolves independently of the cumulative net revenue:
two steps from states with equal `soc` produce equal `soc` and equal
`battery_soc`, whatever their cumulative revenues. -/
theorem stepInterval_soc_indep (p : BessParams) (ih : ℚ) (st st2 : SimState)
    (row : IntervalRow) (h : st.soc = st2.soc) :
    (stepInterval p ih st row).1.soc = (stepInterval p ih st2 row).1.soc ∧
    (stepInterval p ih st row).2.battery_soc = (stepInterval p ih st2 row).2.battery_soc := by
  cases st with
  | mk s c =>
    cases st2 with
    | mk s2 c2 =>
      simp only at h
      subst h
      simp only [stepInterval]
      split_ifs <;> exact ⟨rfl, rfl⟩

/-- An interval step keeps the state of charge within `[0, capacity_mwh]`. -/
theorem stepInterval_soc_mem (p : BessParams) (ih : ℚ) (st : SimState)
    (row : IntervalRow) (heff : 0 < p.efficiency)
    (h0 : 0 ≤ st.soc) (h1 : st.soc ≤ p.capacity_mwh) :
    0 ≤ (stepInterval p ih st row).1.soc ∧
      (stepInterval p ih st row).1.soc ≤ p.capacity_mwh := by
  simp only [stepInterval]
  split_ifs with hcd hlt hce hdc hpos hde
  · dsimp only
    constructor
    · exact add_nonneg h0 hce.le
    · have hle : min (p.capacity_mw * ih) (p.capacity_mwh - st.soc) ≤
          p.capacity_mwh - st.soc := min_le_right _ _
      linarith
  · exact ⟨h0, h1⟩
  · exact ⟨h0, h1⟩
  · dsimp only
    have hle : min (p.capacity_mw * ih) (st.soc * p.efficiency) ≤
        st.soc * p.efficiency := min_le_right _ _
    have hdivle : min (p.capacity_mw * ih) (st.soc * p.efficiency) / p.efficiency ≤
        st.soc := by
      rw [div_le_iff₀ heff]
      linarith [mul_comm st.soc p.efficiency]
    have hdiv0 : 0 ≤ min (p.capacity_mw * ih) (st.soc * p.efficiency) / p.efficiency :=
      div_nonneg hde.le heff.le
    constructor
    · linarith
    · linarith
  · exact ⟨h0, h1⟩
  · exact ⟨h0, h1⟩
  · exact ⟨h0, h1⟩

/-- Within one day, starting from an in-range state of charge, the final and
all recorded states of charge stay within `[0, capacity_mwh]`. -/
theorem runIntervals_soc_bounds (p : BessParams) (ih : ℚ) (heff : 0 < p.efficiency)
    (rows : List IntervalRow) :
    ∀ st : SimState, 0 ≤ st.soc → st.soc ≤ p.capacity_mwh →
      (0 ≤ (runIntervals p ih st rows).1.soc ∧
        (runIntervals p ih st rows).1.soc ≤ p.capacity_mwh) ∧
      ∀ r ∈ (runIntervals p ih st rows).2,
        0 ≤ r.battery_soc ∧ r.battery_soc ≤ p.capacity_mwh := by
  induction rows with
  | nil =>
    intro st h0 h1
    exact ⟨⟨h0, h1⟩, by simp [runIntervals]⟩
  | cons row rest IH =>
    intro st h0 h1
    have hstep := stepInterval_soc_mem p ih st row heff h0 h1
    have htail := IH (stepInterval p ih st row).1 hstep.1 hstep.2
    simp only [runIntervals]
    refine ⟨htail.1, ?_⟩
    intro r hr
    rcases List.mem_cons.1 hr with hr1 | hr2
    · subst hr1
      rw [stepInterval_battery_soc]
      exact hstep
    · exact htail.2 r hr2

/-- The cumulative net revenue left by a day equals the incoming cumulative
plus the sum of the signed cash flows of the emitted rows. -/
theorem runIntervals_final_cumulative (p : BessParams) (ih : ℚ)
    (rows : List IntervalRow) :
    ∀ st : SimState, (runIntervals p ih st rows).1.cumulative =
      st.cumulative + (((runIntervals p ih st rows).2).map cashflow).sum := by
  induction rows with
  | nil =>
    intro st
    simp [runIntervals]
  | cons row rest IH =>
    intro st
    simp only [runIntervals, List.map_cons, List.sum_cons]
    rw [IH, stepInterval_cumulative]
    ring

/-- Within one day, the `net_revenue` written on the k-th row equals the
incoming cumulative plus the cash flows of the first k+1 rows. -/
theorem runIntervals_net_revenue (p : BessParams) (ih : ℚ)
    (rows : List IntervalRow) :
    ∀ (st : SimState) (k : Nat) (hk : k < ((runIntervals p ih st rows).2).length),
      (((runIntervals p ih st rows).2).get ⟨k, hk⟩).net_revenue =
        st.cumulative + ((((runIntervals p ih st rows).2).take (k + 1)).map cashflow).sum := by
  induction rows with
  | nil =>
    intro st k hk
    simp [runIntervals] at hk
  | cons row rest IH =>
    intro st k hk
    simp only [runIntervals] at hk ⊢
    cases k with
    | zero =>
      simp only [List.get_eq_getElem, List.getElem_cons_zero, List.take_succ_cons,
        List.take_zero, List.map_cons, List.map_nil, List.sum_cons, List.sum_nil, add_zero]
      rw [stepInterval_net_revenue, stepInterval_cumulative]
    | succ k =>
      simp only [List.length_cons, Nat.succ_lt_succ_iff] at hk
      simp only [List.get_eq_getElem, List.getElem_cons_succ, List.take_succ_cons,
        List.map_cons, List.sum_cons]
      have := IH (stepInterval p ih st row).1 k (by simpa using hk)
      rw [List.get_eq_getElem] at this
      rw [this, stepInterval_cumulative]
      ring

/-- The per-day state-of-charge trajectory does not depend on the incoming
cumulative net revenue: runs from states with equal `soc` record equal
`battery_soc` traces and end with equal `soc`. -/
theorem runIntervals_soc_trace_indep (p : BessParams) (ih : ℚ)
    (rows : List IntervalRow) :
    ∀ st st2 : SimState, st.soc = st2.soc →
      ((runIntervals p ih st rows).2).map (·.battery_soc) =
        ((runIntervals p ih st2 rows).2).map (·.battery_soc) ∧
      (runIntervals p ih st rows).1.soc = (runIntervals p ih st2 rows).1.soc := by
  induction rows with
  | nil =>
    intro st st2 h
    exact ⟨rfl, h⟩
  | cons row rest IH =>
    intro st st2 h
    have hstep := stepInterval_soc_indep p ih st st2 row h
    have htail := IH (stepInterval p ih st row).1 (stepInterval p ih st2 row).1 hstep.1
    simp only [runIntervals, List.map_cons]
    exact ⟨by rw [hstep.2, htail.1], htail.2⟩

/-- Across the whole run, every recorded state of charge stays within
`[0, capacity_mwh]`, whatever the incoming cumulative revenue. -/
theorem runDays_soc_bounds (p : BessParams) (ih : ℚ) (heff : 0 < p.efficiency)
    (hcap : 0 ≤ p.capacity_mwh) (days : List (List IntervalRow)) :
    ∀ cum : ℚ, ∀ dayRes ∈ runDays p ih cum days, ∀ r ∈ dayRes,
      0 ≤ r.battery_soc ∧ r.battery_soc ≤ p.capacity_mwh := by
  induction days with
  | nil =>
    intro cum dayRes h
    simp [runDays] at h
  | cons d ds IH =>
    intro cum dayRes h
    simp only [runDays] at h
    rcases List.mem_cons.1 h with h1 | h2
    · subst h1
      exact (runIntervals_soc_bounds p ih heff d ⟨0, cum⟩ le_rfl hcap).2
    · exact IH _ dayRes h2

/-- Each day of the run records the state-of-charge trajectory of a fresh run
of that day from an empty battery: the SOC is reset to 0 at the start of each
calendar day and is not carried over. -/
theorem runDays_soc_trace (p : BessParams) (ih : ℚ) (days : List (List IntervalRow)) :
    ∀ (cum : ℚ) (i : Nat) (hi : i < days.length)
      (hl : i < (runDays p ih cum days).length),
      ((runDays p ih cum days).get ⟨i, hl⟩).map (·.battery_soc) =
        ((runIntervals p ih ⟨0, 0⟩ (days.get ⟨i, hi⟩)).2).map (·.battery_soc) := by
  induction days with
  | nil =>
    intro cum i hi
    simp at hi
  | cons d ds IH =>
    intro cum i hi hl
    cases i with
    | zero =>
      show ((simulateDay p ih cum d).2).map (·.battery_soc) = _
      exact (runIntervals_soc_trace_indep p ih d ⟨0, cum⟩ ⟨0, 0⟩ rfl).1
    | succ i =>
      simp only [List.length_cons, Nat.succ_lt_succ_iff] at hi
      have hl2 : i < (runDays p ih (simulateDay p ih cum d).1.cumulative ds).length := by
        have := hl
        simp only [runDays, List.length_cons, Nat.succ_lt_succ_iff] at this
        exact this
      exact IH (simulateDay p ih cum d).1.cumulative i hi hl2

/-- Across the whole run, the `net_revenue` stored on the k-th interval (in
chronological order over all days) equals the incoming cumulative plus the
signed cash flows of intervals 0..k: the running total crosses day boundaries
without reset. -/
theorem runDays_net_revenue (p : BessParams) (ih : ℚ) (days : List (List IntervalRow)) :
    ∀ (cum : ℚ) (k : Nat) (hk : k < ((runDays p ih cum days).flatten).length),
      (((runDays p ih cum days).flatten).get ⟨k, hk⟩).net_revenue =
        cum + ((((runDays p ih cum days).flatten).take (k + 1)).map cashflow).sum := by
  induction days with
  | nil =>
    intro cum k hk
    simp [runDays] at hk
  | cons d ds IH =>
    intro cum k hk
    simp only [runDays, List.flatten_cons] at hk ⊢
    rw [List.get_eq_getElem]
    by_cases hcase : k < ((simulateDay p ih cum d).2).length
    · rw [List.getElem_append_left hcase]
      have htake : k + 1 - ((simulateDay p ih cum d).2).length = 0 := by omega
      rw [List.take_append_eq_append_take, htake, List.take_zero, List.append_nil]
      have := runIntervals_net_revenue p ih d ⟨0, cum⟩ k hcase
      rw [List.get_eq_getElem] at this
      exact this
    · push_neg at hcase
      rw [List.getElem_append_right hcase]
      have hk2 : k - ((simulateDay p ih cum d).2).length <
          ((runDays p ih (simulateDay p ih cum d).1.cumulative ds).flatten).length := by
        simp only [List.length_append] at hk
        omega
      have := IH (simulateDay p ih cum d).1.cumulative
        (k - ((simulateDay p ih cum d).2).length) hk2
      rw [List.get_eq_getElem] at this
      rw [this]
      have hlen : ((simulateDay p ih cum d).2).length ≤ k + 1 := by omega
      rw [List.take_append_eq_append_take, List.map_append, List.sum_append,
        List.take_of_length_le hlen]
      have hcum := runIntervals_final_cumulative p ih d ⟨0, cum⟩
      have hidx : k + 1 - ((simulateDay p ih cum d).2).length =
          k - ((simulateDay p ih cum d).2).length + 1 := by omega
      rw [hidx]
      unfold simulateDay at hcum ⊢
      rw [hcum]
      ring

/-- C6: throughout every battery simulation (with positive efficiency and
non-negative capacity), (1) every recorded state of charge satisfies
0 ≤ soc ≤ capacity_mwh; (2) each day's state-of-charge trajectory equals that
of a fresh run of that day from an empty battery — soc is reset to 0 at the
start of every calendar day and not carried over; (3) the `net_revenue`
stored on the k-th interval of the whole date range equals the sum of all
signed cash flows up to and including that interval — the running total is
never reset at day boundaries. -/
theorem simulate_battery_operations_invariants (p : BessParams) (intervalHours : ℚ)
    (days : List (List IntervalRow)) (heff : 0 < p.efficiency)
    (hcap : 0 ≤ p.capacity_mwh) :
    (∀ dayRes ∈ simulate_battery_operations p intervalHours days, ∀ r ∈ dayRes,
        0 ≤ r.battery_soc ∧ r.battery_soc ≤ p.capacity_mwh) ∧
    (∀ (i : Nat) (hi : i < days.length)
        (hl : i < (simulate_battery_operations p intervalHours days).length),
        ((simulate_battery_operations p intervalHours days).get ⟨i, hl⟩).map
            (·.battery_soc) =
          ((runIntervals p intervalHours ⟨0, 0⟩ (days.get ⟨i, hi⟩)).2).map
            (·.battery_soc)) ∧
    (∀ (k : Nat)
        (hk : k < ((simulate_battery_operations p intervalHours days).flatten).length),
        (((simulate_battery_operations p intervalHours days).flatten).get
            ⟨k, hk⟩).net_revenue =
          ((((simulate_battery_operations p intervalHours days).flatten).take
            (k + 1)).map cashflow).sum) := by
  refine ⟨?_, ?_, ?_⟩
  · exact runDays_soc_bounds p intervalHours heff hcap days 0
  · exact runDays_soc_trace p intervalHours days 0
  · intro k hk
    have h := runDays_net_revenue p intervalHours days 0 k hk
    rw [zero_add] at h
    exact h

/-- C6 witness: `simulate_battery_operations_invariants` on a concrete
two-day run of the 10 MW / 2 h / eta 0.9 battery. -/
theorem simulate_battery_operations_invariants_witness :
    0 < (BessParams.efficiency ⟨10, 2, 9 / 10, ⟨8, 0⟩, ⟨12, 0⟩, none⟩) ∧
    ∀ dayRes ∈ simulate_battery_operations ⟨10, 2, 9 / 10, ⟨8, 0⟩, ⟨12, 0⟩, none⟩ 1
        [[⟨480, 10⟩, ⟨720, 50⟩], [⟨480, 30⟩, ⟨720, 20⟩]], ∀ r ∈ dayRes,
      0 ≤ r.battery_soc ∧
        r.battery_soc ≤ BessParams.capacity_mwh ⟨10, 2, 9 / 10, ⟨8, 0⟩, ⟨12, 0⟩, none⟩ :=
  ⟨by norm_num,
    (simulate_battery_operations_invariants ⟨10, 2, 9 / 10, ⟨8, 0⟩, ⟨12, 0⟩, none⟩ 1
      [[⟨480, 10⟩, ⟨720, 50⟩], [⟨480, 30⟩, ⟨720, 20⟩]] (by norm_num)
      (by norm_num [BessParams.capacity_mwh])).1⟩

/-- C3, counterexample: two price rows sharing the key (1, 1, 0) — as happens
whenever the price series spans more than one year — joined against a
one-row profile produce 2 joined rows, exceeding
min(filtered price rows, profile rows) = min 2 1 = 1. -/
theorem join_price_with_pv_min_counterexample :
    (join_price_with_pv [⟨1, 1, 0, some 10⟩, ⟨1, 1, 0, some 20⟩] [⟨1, 1, 0, 5⟩]).length = 2 ∧
    (([⟨1, 1, 0, some 10⟩, ⟨1, 1, 0, some 20⟩] : List PriceRow).filter
        fun r => r.price.isSome).length = 2 ∧
    ([(⟨1, 1, 0, 5⟩ : PvRow)]).length = 1 ∧
    ¬((join_price_with_pv [⟨1, 1, 0, some 10⟩, ⟨1, 1, 0, some 20⟩]
        [⟨1, 1, 0, 5⟩]).length ≤ min 2 1) := by
  refine ⟨by decide, by decide, rfl, by decide⟩

/-- If the PV profile has at most one row per (month, day, hour) key, each
price row matches at most one profile row. -/
theorem pv_filter_length_le (pv : List PvRow)
    (hnd : (pv.map fun q => (q.month, q.day, q.hour)).Nodup) (m d h : Nat) :
    (pv.filter fun q => q.month == m && q.day == d && q.hour == h).length ≤ 1 := by
  induction pv with
  | nil => simp
  | cons q rest IH =>
    rw [List.map_cons, List.nodup_cons] at hnd
    by_cases hq : (q.month == m && q.day == d && q.hour == h) = true
    · rw [List.filter_cons, if_pos hq]
      have hkey : (q.month, q.day, q.hour) = (m, d, h) := by
        simp only [Bool.and_eq_true, beq_iff_eq] at hq
        simp [hq.1.1, hq.1.2, hq.2]
      have hnil : (rest.filter fun q2 => q2.month == m && q2.day == d && q2.hour == h) =
          [] := by
        rw [List.filter_eq_nil_iff]
        intro q2 hq2 hmatch
        apply hnd.1
        have hkey2 : (q2.month, q2.day, q2.hour) = (m, d, h) := by
          simp only [Bool.and_eq_true, beq_iff_eq] at hmatch
          simp [hmatch.1.1, hmatch.1.2, hmatch.2]
        rw [hkey, ← hkey2]
        exact List.mem_map_of_mem _ hq2
      rw [hnil]
      simp
    · rw [List.filter_cons, if_neg hq]
      exact IH hnd.2

/-- Decomposition of a joined row: it comes from a non-null price row and a
profile row agreeing on (month, day, hour), carries their price and output,
and is not a Feb-29 row when the profile lacks Feb 29. -/
theorem join_mem_decomp (prices : List PriceRow) (pv : List PvRow) (j : JoinedRow)
    (hj : j ∈ join_price_with_pv prices pv) :
    (∃ pr ∈ prices, pr.month = j.month ∧ pr.day = j.day ∧ pr.hour = j.hour ∧
        pr.price = some j.price) ∧
    (∃ q ∈ pv, q.month = j.month ∧ q.day = j.day ∧ q.hour = j.hour ∧
        q.pv_mwh = j.pv_mwh) ∧
    ((pv.any fun q2 => q2.month == 2 && q2.day == 29) = false →
      ¬(j.month = 2 ∧ j.day = 29)) := by
  simp only [join_price_with_pv] at hj
  split_ifs at hj with h1 h2 h3
  · exact absurd hj (by simp)
  · exact absurd hj (by simp)
  · -- profile defines Feb 29: filtered2 = filtered
    obtain ⟨pr, hpr, hmem⟩ := List.mem_flatMap.1 hj
    obtain ⟨q, hq, hjeq⟩ := List.mem_map.1 hmem
    have hqf := List.mem_filter.1 hq
    have hprf := List.mem_filter.1 hpr
    obtain ⟨v, hv⟩ := Option.isSome_iff_exists.1 hprf.2
    subst hjeq
    simp only [Bool.and_eq_true, beq_iff_eq] at hqf
    refine ⟨⟨pr, hprf.1, rfl, rfl, rfl, ?_⟩,
      ⟨q, hqf.1, hqf.2.1.1, hqf.2.1.2, hqf.2.2, rfl⟩, ?_⟩
    · rw [hv]
      rfl
    · intro hany
      rw [hany] at h3
      exact absurd h3 (by simp)
  · -- profile lacks Feb 29: filtered2 drops (2, 29) price rows
    obtain ⟨pr, hpr, hmem⟩ := List.mem_flatMap.1 hj
    obtain ⟨q, hq, hjeq⟩ := List.mem_map.1 hmem
    have hqf := List.mem_filter.1 hq
    have hpr2 := List.mem_filter.1 hpr
    have hprf := List.mem_filter.1 hpr2.1
    obtain ⟨v, hv⟩ := Option.isSome_iff_exists.1 hprf.2
    subst hjeq
    simp only [Bool.and_eq_true, beq_iff_eq] at hqf
    refine ⟨⟨pr, hprf.1, rfl, rfl, rfl, ?_⟩,
      ⟨q, hqf.1, hqf.2.1.1, hqf.2.1.2, hqf.2.2, rfl⟩, ?_⟩
    · rw [hv]
      rfl
    · intro _ hfeb
      have hm : pr.month = 2 := hfeb.1
      have hd : pr.day = 29 := hfeb.2
      have hneg := hpr2.2
      simp [hm, hd] at hneg

/-- A flatMap in which every element contributes at most one row has at most
as many rows as elements. -/
theorem flatMap_length_le_of_bounded {α β : Type} (l : List α) (g : α → List β)
    (h : ∀ a ∈ l, (g a).length ≤ 1) : (l.flatMap g).length ≤ l.length := by
  induction l with
  | nil => simp
  | cons a rest IH =>
    simp only [List.flatMap_cons, List.length_append, List.length_cons]
    have h1 := h a (by simp)
    have h2 := IH fun x hx => h x (by simp [hx])
    omega

/-- C3, amended: provided the PV profile has at most one row per
(month, day, hour) key, the aligner returns at most as many rows as there are
price rows remaining after dropping null prices; unconditionally it never
fabricates rows — every joined row takes its key, price and output from a
non-null price row and a profile row agreeing on the key — and when the
profile lacks Feb 29 no joined row carries (month, day) = (2, 29). -/
theorem join_price_with_pv_spec (prices : List PriceRow) (pv : List PvRow) :
    ((pv.map fun q => (q.month, q.day, q.hour)).Nodup →
      (join_price_with_pv prices pv).length ≤
        (prices.filter fun r => r.price.isSome).length) ∧
    (∀ j ∈ join_price_with_pv prices pv,
      (∃ pr ∈ prices, pr.month = j.month ∧ pr.day = j.day ∧ pr.hour = j.hour ∧
          pr.price = some j.price) ∧
      (∃ q ∈ pv, q.month = j.month ∧ q.day = j.day ∧ q.hour = j.hour ∧
          q.pv_mwh = j.pv_mwh)) ∧
    ((pv.any fun q2 => q2.month == 2 && q2.day == 29) = false →
      ∀ j ∈ join_price_with_pv prices pv, ¬(j.month = 2 ∧ j.day = 29)) := by
  refine ⟨?_, ?_, ?_⟩
  · intro hnd
    simp only [join_price_with_pv]
    split_ifs with h1 h2 h3
    · simp
    · simp
    · apply flatMap_length_le_of_bounded
      intro pr _
      rw [List.length_map]
      exact pv_filter_length_le pv hnd pr.month pr.day pr.hour
    · refine le_trans (flatMap_length_le_of_bounded _ _ ?_) (List.length_filter_le _ _)
      intro pr _
      rw [List.length_map]
      exact pv_filter_length_le pv hnd pr.month pr.day pr.hour
  · intro j hj
    exact ⟨(join_mem_decomp prices pv j hj).1, (join_mem_decomp prices pv j hj).2.1⟩
  · intro hany j hj
    exact (join_mem_decomp prices pv j hj).2.2 hany

/-- C3 witness: `join_price_with_pv_spec` on a concrete series and profile
with unique profile keys, a null price and no Feb 29 in the profile. -/
theorem join_price_with_pv_spec_witness :
    (([⟨1, 1, 0, 5⟩, ⟨1, 2, 0, 3⟩] : List PvRow).map
        fun q => (q.month, q.day, q.hour)).Nodup ∧
    (join_price_with_pv [⟨1, 1, 0, some 10⟩, ⟨2, 29, 0, some 7⟩, ⟨1, 2, 0, none⟩]
        [⟨1, 1, 0, 5⟩, ⟨1, 2, 0, 3⟩]).length ≤
      (([⟨1, 1, 0, some 10⟩, ⟨2, 29, 0, some 7⟩, ⟨1, 2, 0, none⟩] : List PriceRow).filter
        fun r => r.price.isSome).length :=
  ⟨by decide,
    (join_price_with_pv_spec [⟨1, 1, 0, some 10⟩, ⟨2, 29, 0, some 7⟩, ⟨1, 2, 0, none⟩]
      [⟨1, 1, 0, 5⟩, ⟨1, 2, 0, 3⟩]).1 (by decide)⟩

end SpainEnergy
